import Mathlib

/-!
Verification of the style-synthesis optimization engine
(`src/ai_service/src/models/style_transfer.py`,
`src/ai_service/src/models/feature_extractor.py`,
`src/ai_service/src/utils/image_enhancements.py`, and the call site in
`src/ai_service/src/api/services/transform_service.py`).

The embedding is shallow: tensors of floating-point scalars are modelled by
exact rationals extended with a non-finite element (`Flt`), external library
primitives (the frozen VGG19 network's activations, cv2's Gaussian blur, the
torch optimizer's parameter update) are abstract function parameters, and the
repository's own control flow, arithmetic and data handling are translated
statement by statement.
-/

/-! ## Numeric scalars

A floating-point scalar: either a finite value (modelled exactly by a
rational) or a non-finite value (NaN and the infinities are collapsed into
one absorbing element, matching IEEE propagation through `+`, `-`, `*`). -/

inductive Flt where
  | fin : ℚ → Flt
  | nan : Flt
deriving DecidableEq

def Flt.add : Flt → Flt → Flt
  | .fin a, .fin b => .fin (a + b)
  | _, _ => .nan

def Flt.sub : Flt → Flt → Flt
  | .fin a, .fin b => .fin (a - b)
  | _, _ => .nan

def Flt.mul : Flt → Flt → Flt
  | .fin a, .fin b => .fin (a * b)
  | _, _ => .nan

/-- torch's `tensor.clamp_(0, 1)`: finite values are clamped into [0,1];
a NaN entry is left as NaN (torch.clamp propagates NaN). -/
def Flt.clamp01 : Flt → Flt
  | .fin a => .fin (max 0 (min 1 a))
  | .nan => .nan

/-- Boolean check used to state the clamp invariant: a finite scalar lies in
[0,1]; a non-finite scalar is exempt (the invariant speaks of valid pixels). -/
def Flt.inRange01B : Flt → Bool
  | .fin q => decide (0 ≤ q) && decide (q ≤ 1)
  | .nan => true

/-! ## Feature maps and the Gram matrix
(`feature_extractor.py`, `VGG19FeatureExtractor.gram_matrix`, lines 133-152) -/

/-- A feature activation tensor of shape batch × channels × height × width,
as produced by the extractor for one layer. -/
structure FMap (B C H W : ℕ) where
  data : Fin B → Fin C → Fin H → Fin W → ℚ

/-- `gram_matrix`: the source reshapes `features` to B × C × (H·W) and forms
`bmm(F, Fᵀ)`, so entry (b, i, j) is the inner product of channels i and j
over the flattened spatial positions; it then divides by `C*H*W` when that
normalization factor is positive (lines 145-152). Summing over (h, w) pairs
is the flattened inner product. -/
def VGG19FeatureExtractor.gram_matrix {B C H W : ℕ} (f : FMap B C H W) :
    Fin B → Fin C → Fin C → ℚ :=
  fun b i j =>
    let s := ∑ h : Fin H, ∑ w : Fin W, f.data b i h w * f.data b j h w
    if 0 < C * H * W then s / ((C * H * W : ℕ) : ℚ) else s

/-! ## The layer catalog
(`feature_extractor.py`, `VGG19FeatureExtractor.__init__`, lines 18-65, and
`set_layers`, lines 118-131) -/

/-- One entry of torchvision's `vgg19().features` sequence, as the
constructor's loop distinguishes them (`nn.Conv2d`, `nn.ReLU`,
`nn.MaxPool2d`). -/
inductive VLayer where
  | conv : VLayer
  | relu : VLayer
  | pool : VLayer
deriving DecidableEq

/-- The fixed layer sequence of torchvision's VGG19 `features` module
(configuration E: blocks of 2, 2, 4, 4, 4 convolutions, each convolution
followed by a ReLU, each block closed by a max-pool). -/
def vgg19_features : List VLayer :=
  [.conv, .relu, .conv, .relu, .pool,
   .conv, .relu, .conv, .relu, .pool,
   .conv, .relu, .conv, .relu, .conv, .relu, .conv, .relu, .pool,
   .conv, .relu, .conv, .relu, .conv, .relu, .conv, .relu, .pool,
   .conv, .relu, .conv, .relu, .conv, .relu, .conv, .relu, .pool]

/-- The constructor's loop over `vgg.features` (lines 42-53): a convolution
at position c of block b is named `conv{b}_{c}`; a max-pool closes the block
and resets the convolution counter. Returns the catalog of names in order
(the keys of `self.layer_map`). -/
def buildLayerNames : List VLayer → ℕ → ℕ → List String
  | [], _, _ => []
  | VLayer.pool :: rest, blockCount, _ => buildLayerNames rest (blockCount + 1) 1
  | VLayer.conv :: rest, blockCount, convCount =>
      ("conv" ++ toString blockCount ++ "_" ++ toString convCount)
        :: buildLayerNames rest blockCount (convCount + 1)
  | VLayer.relu :: rest, blockCount, convCount => buildLayerNames rest blockCount convCount

/-- The catalog of available layer names (`self.layer_map.keys()`). -/
def layer_map_names : List String := buildLayerNames vgg19_features 1 1

/-- The default layer set of the extractor (lines 28-31). -/
def default_extractor_layers : List String :=
  ["conv1_1", "conv2_1", "conv3_1", "conv4_1", "conv5_1"]

inductive FEErr where
  | invalidLayerNames : List String → FEErr
deriving DecidableEq

/-- The extractor's state relevant to layer selection: the active layer set. -/
structure Extractor where
  layers : List String
deriving DecidableEq

/-- The validation both `__init__` (lines 58-60) and `set_layers` (lines
128-131) perform, written once: `missing_layers = set(layers) -
set(self.layer_map.keys())`, and a `ValueError` naming the missing layers
when that set is non-empty; otherwise the layer set is accepted. -/
def validate_layer_names (layers : List String) : Except FEErr Extractor :=
  let missing := layers.filter (fun l => !(layer_map_names.contains l))
  if missing.isEmpty then Except.ok ⟨layers⟩ else Except.error (FEErr.invalidLayerNames missing)

/-- `VGG19FeatureExtractor.__init__`: `self.layers = layers or default`
(Python falsiness: `None` and the empty list both fall back to the default,
lines 28-31), then the catalog validation (lines 58-60). The check runs in
the constructor, before any feature computation. -/
def VGG19FeatureExtractor.init (layersArg : Option (List String)) : Except FEErr Extractor :=
  validate_layer_names
    (match layersArg with
     | none => default_extractor_layers
     | some ls => if ls.isEmpty then default_extractor_layers else ls)

/-- `VGG19FeatureExtractor.set_layers` (lines 118-131): the same validation
against the catalog; on success the active set becomes a copy of the
argument. -/
def Extractor.set_layers (_e : Extractor) (layers : List String) : Except FEErr Extractor :=
  validate_layer_names layers

/-! ## Average style Gram matrices
(`style_transfer.py`, `StyleTransfer._calculate_average_style_grams`,
lines 127-152) -/

inductive TErr where
  | emptyStyleList : TErr
  | noGramsForLayer : TErr
deriving DecidableEq

/-- `torch.mean(torch.stack(gs, dim=0), dim=0)`: stacking along a new leading
dimension and taking the mean along it is the element-wise mean of the
stacked matrices (line 148). -/
def stackMean {B C : ℕ} (gs : List (Fin B → Fin C → Fin C → ℚ)) :
    Fin B → Fin C → Fin C → ℚ :=
  fun b i j => (gs.map (fun g => g b i j)).sum / (gs.length : ℚ)

/-- `_calculate_average_style_grams`: raises `ValueError` on an empty
reference list (lines 129-130); otherwise, for each style layer, collects the
(detached) Gram matrix of each reference's features at that layer
(lines 136-141) and averages them by stack-and-mean (lines 144-148); the
per-layer `RuntimeError` branch (line 150) fires when a layer collected no
Gram matrices. Feature extraction through the frozen network is the abstract
parameter `extract` (the network's weights are external data); dimensions are
matched across references, as the service resizes every style image to the
content size before this call. -/
def calculate_average_style_grams {I : Type} {B C H W : ℕ}
    (extract : I → String → FMap B C H W)
    (style_layers : List String) (style_images : List I) :
    Except TErr (String → Fin B → Fin C → Fin C → ℚ) :=
  if style_images.isEmpty then Except.error TErr.emptyStyleList
  else
    let layerGrams : String → List (Fin B → Fin C → Fin C → ℚ) :=
      fun layer =>
        style_images.map (fun im => VGG19FeatureExtractor.gram_matrix (extract im layer))
    if style_layers.any (fun layer => (layerGrams layer).isEmpty) then
      Except.error TErr.noGramsForLayer
    else
      Except.ok (fun layer => stackMean (layerGrams layer))

/-! ## The optimization loop
(`style_transfer.py`, `StyleTransfer.transfer_style`, lines 154-259) -/

/-- The per-step loss record: the closure's `content_loss`, `style_loss`,
`tv_loss` scalars (before weighting). -/
structure LossParts where
  content : Flt
  style : Flt
  tv : Flt
deriving DecidableEq

/-- The loss history dictionary (lines 202-207): four per-step scalar
sequences. -/
structure HistoryRec where
  content_loss : List Flt
  style_loss : List Flt
  tv_loss : List Flt
  total_loss : List Flt
deriving DecidableEq

def HistoryRec.empty : HistoryRec := ⟨[], [], [], []⟩

/-- The loop's mutable state: the canvas `input_image`, the history, and the
step counter `step[0]`. The two trace fields are ghost observations recording
the canvas as each closure call consumes it (after the opening clamp) and as
each optimizer update leaves it; they add no behaviour. -/
structure LoopState where
  input_image : List Flt
  history : HistoryRec
  step : ℕ
  forwardTrace : List (List Flt)
  postUpdateTrace : List (List Flt)
deriving DecidableEq

/-- `input_image.clamp_(0, 1)` over the canvas pixels. -/
def StyleTransfer.clampCanvas (c : List Flt) : List Flt := c.map Flt.clamp01

/-- The weighted total loss (lines 229-233):
`content_w * content_loss + style_w * style_loss + tv_w * tv_loss`,
associated left to right as Python evaluates it. -/
def StyleTransfer.total_loss_of (cw sw tw : ℚ) (lp : LossParts) : Flt :=
  (((Flt.fin cw).mul lp.content).add ((Flt.fin sw).mul lp.style)).add
    ((Flt.fin tw).mul lp.tv)

/-- One execution of the optimization closure (lines 211-250) followed by the
optimizer's parameter update. In order: clamp the canvas in place;
`zero_grad`; extract features of the current canvas and compute the three
losses (all routed through the frozen network, hence the abstract `lossFn`
evaluated at the clamped canvas); form the weighted total; backpropagate
(abstract `gradFn` at the clamped canvas); append the step's losses to the
history when `step[0] < num_steps` (lines 239-243); invoke the progress
callback (no state effect); increment `step[0]`; finally the torch optimizer
(`optim.LBFGS([input_image], max_iter=1)`, which evaluates the closure exactly
once per `.step` call) applies its parameter update, the abstract `updFn`.
Nothing anywhere inspects the gradient for non-finite values. -/
def StyleTransfer.closureStep (num_steps : ℕ) (cw sw tw : ℚ)
    (lossFn : List Flt → LossParts)
    (gradFn : List Flt → List Flt)
    (updFn : List Flt → List Flt → List Flt)
    (s : LoopState) : LoopState :=
  let c1 := StyleTransfer.clampCanvas s.input_image
  let lp := lossFn c1
  let tot := StyleTransfer.total_loss_of cw sw tw lp
  let hist :=
    if s.step < num_steps then
      HistoryRec.mk (s.history.content_loss ++ [lp.content])
        (s.history.style_loss ++ [lp.style])
        (s.history.tv_loss ++ [lp.tv])
        (s.history.total_loss ++ [tot])
    else s.history
  let g := gradFn c1
  let c2 := updFn c1 g
  LoopState.mk c2 hist (s.step + 1) (s.forwardTrace ++ [c1]) (s.postUpdateTrace ++ [c2])

/-- The driver loop `while step[0] < num_steps: optimizer.step(closure)`
(lines 252-253). Each iteration advances `step[0]` by exactly one, so the
loop performs exactly `num_steps - step₀` iterations; the recursion carries
that count as structural fuel while re-checking the loop condition every
iteration, exactly as the `while` does. -/
def StyleTransfer.runLoopFuel (num_steps : ℕ) (cw sw tw : ℚ)
    (lossFn : List Flt → LossParts)
    (gradFn : List Flt → List Flt)
    (updFn : List Flt → List Flt → List Flt) :
    ℕ → LoopState → LoopState
  | 0, s => s
  | fuel + 1, s =>
      if s.step < num_steps then
        StyleTransfer.runLoopFuel num_steps cw sw tw lossFn gradFn updFn fuel
          (StyleTransfer.closureStep num_steps cw sw tw lossFn gradFn updFn s)
      else s

/-- Weight resolution (lines 182-185): `content_w = content_weight or
self.content_weight` — Python's `or` takes the instance default when the
override is `None` or falsy, and `0.0` is falsy. -/
def StyleTransfer.resolveWeight (override : Option ℚ) (instanceWeight : ℚ) : ℚ :=
  match override with
  | none => instanceWeight
  | some v => if v = 0 then instanceWeight else v

/-- What `transfer_style` returns, together with the ghost traces and the
final step counter. `output` is `input_image.detach()` after the final clamp
(lines 255-259). -/
structure RunResult where
  output : List Flt
  history : HistoryRec
  stepsExecuted : ℕ
  forwardTrace : List (List Flt)
  postUpdateTrace : List (List Flt)
deriving DecidableEq

/-- `StyleTransfer.transfer_style` (lines 154-259). Control flow in source
order: the empty-style-list `ValueError` (lines 179-180) before anything
else; weight resolution (lines 182-185); the one-time target content features
and average style Gram matrices (lines 187-194) — both detached constants
that reach the loop only through the loss computation, hence folded into the
abstract `lossFn`; the canvas initialized to a differentiable copy of the
content image (line 197); the optimization loop (lines 252-253) starting from
`step[0] = 0`, so it runs `num_steps` iterations; the final clamp (lines
255-257); and the detached canvas plus history as the result (line 259). -/
def StyleTransfer.transfer_style {I : Type}
    (lossFn : List Flt → LossParts)
    (gradFn : List Flt → List Flt)
    (updFn : List Flt → List Flt → List Flt)
    (instCW instSW instTW : ℚ)
    (content_image : List Flt) (style_images : List I) (num_steps : ℕ)
    (content_weight style_weight tv_weight : Option ℚ) :
    Except TErr RunResult :=
  if style_images.isEmpty then Except.error TErr.emptyStyleList
  else
    let cw := StyleTransfer.resolveWeight content_weight instCW
    let sw := StyleTransfer.resolveWeight style_weight instSW
    let tw := StyleTransfer.resolveWeight tv_weight instTW
    let s0 : LoopState := LoopState.mk content_image HistoryRec.empty 0 [] []
    let final := StyleTransfer.runLoopFuel num_steps cw sw tw lossFn gradFn updFn
      (num_steps - s0.step) s0
    Except.ok (RunResult.mk (StyleTransfer.clampCanvas final.input_image) final.history
      final.step final.forwardTrace final.postUpdateTrace)

/-! ## Concrete instantiations used at concrete inputs -/

/-- A loss computation returning finite constants at every canvas. -/
def constLossFn (_c : List Flt) : LossParts := ⟨Flt.fin 1, Flt.fin 1, Flt.fin 1⟩

/-- A gradient stream that is non-finite exactly when the canvas is the
step-1 result `[1/4]` of the scenario below: the injected NaN gradient at
step 2 of the run. -/
def nanAtQuarterGrad (c : List Flt) : List Flt :=
  if c = [Flt.fin (1/4)] then [Flt.nan] else [Flt.fin (1/4)]

/-- A constant gradient of −1 on a one-pixel canvas. -/
def constNegGrad (_c : List Flt) : List Flt := [Flt.fin (-1)]

/-- A plain descent update `canvas - gradient`, one admissible behaviour of
the torch optimizer's parameter update. -/
def descentUpd (c g : List Flt) : List Flt := List.zipWith Flt.sub c g

/-- Projection: the executed step count of a successful run, 0 on error. -/
def runStepsOf : Except TErr RunResult → ℕ
  | Except.ok r => r.stepsExecuted
  | Except.error _ => 0

/-- Projection: the output canvas of a successful run, [] on error. -/
def runOutputOf : Except TErr RunResult → List Flt
  | Except.ok r => r.output
  | Except.error _ => []

/-- Projection: the `total_loss` history of a successful run, [] on error. -/
def runTotalLossOf : Except TErr RunResult → List Flt
  | Except.ok r => r.history.total_loss
  | Except.error _ => []

/-- A concrete 1-by-1-by-1-by-1 extractor mapping a rational to the constant
feature map holding it, used to evaluate theorems at concrete inputs. -/
def constFMapExtractor (q : ℚ) (_l : String) : FMap 1 1 1 1 :=
  FMap.mk (fun _ _ _ _ => q)

/-- Projection: the post-update ghost trace of a successful run. -/
def runPostTraceOf : Except TErr RunResult → List (List Flt)
  | Except.ok r => r.postUpdateTrace
  | Except.error _ => []

/-! ## The service call site
(`transform_service.py`, `TransformationService._local_transform`,
lines 302-310) -/

/-- The parameters `transfer_style` declares (style_transfer.py lines
154-162, `self` aside). The signature has no `**kwargs` catch-all. -/
def transfer_style_parameters : List String :=
  ["content_image", "style_images", "num_steps",
   "content_weight", "style_weight", "tv_weight", "callback"]

/-- The keyword arguments `_local_transform` passes at the call
`self.style_transfer.transfer_style(...)` (transform_service.py lines
305-309), beyond the two positional arguments. -/
def local_transform_call_keywords : List String :=
  ["num_steps", "style_weight", "content_weight", "tv_weight", "learning_rate"]

/-- Python keyword binding for a signature without `**kwargs`: the call binds
only if every keyword names a declared parameter; otherwise it raises
`TypeError: got an unexpected keyword argument`. -/
def accepts_keywords (params kwargs : List String) : Bool :=
  kwargs.all (fun k => params.contains k)

/-! ## Post-processing: unsharp mask
(`image_enhancements.py`, `unsharp_mask`, lines 5-36) -/

/-- A float-stage image: rows of exact-rational pixel values. -/
def FImg : Type := List (List ℚ)

/-- `np.clip(sharpened, 0, 255)` per pixel. -/
def clip0255 (x : ℚ) : ℚ := max 0 (min 255 x)

/-- `.astype(np.uint8)` on a clipped (hence non-negative) float: truncate to
an integer and reduce modulo 256. -/
def toUint8 (q : ℚ) : ℕ := (⌊q⌋).toNat % 256

/-- The `uint8 → float32` conversion of the input array (line 17): exact, as
every 8-bit integer is a float32. -/
def toFloatImg (img : List (List ℕ)) : FImg :=
  img.map (fun r => r.map (fun (p : ℕ) => (p : ℚ)))

/-- Elementwise combination of two equally shaped float images, as numpy's
broadcast arithmetic performs it. -/
def zipImg (f : ℚ → ℚ → ℚ) (a b : FImg) : FImg :=
  List.zipWith (fun ra rb => List.zipWith f ra rb) a b

/-- Elementwise combination of three equally shaped float images. -/
def zipImg3 (f : ℚ → ℚ → ℚ → ℚ) (a b c : FImg) : FImg :=
  List.zipWith (fun rab rc => List.zipWith (fun g x => g x) rab rc)
    (List.zipWith (fun ra rb => List.zipWith (fun x y => f x y) ra rb) a b) c

/-- `unsharp_mask` on an 8-bit (grayscale) array, lines 5-36 of
`image_enhancements.py`: convert to float; blur (cv2's Gaussian blur with the
given kernel size and sigma — external, the abstract `blur`); form
`sharpened = (amount+1)·original − amount·blurred`; clip to [0,255]; when
`threshold > 0`, copy the original float back over pixels whose
blur/original difference is below the threshold; convert back to uint8. -/
def unsharp_mask (blur : (ℕ × ℕ) → ℚ → FImg → FImg)
    (kernel_size : ℕ × ℕ) (sigma : ℚ) (amount : ℚ) (threshold : ℕ)
    (image_array : List (List ℕ)) : List (List ℕ) :=
  let image_float := toFloatImg image_array
  let blurred := blur kernel_size sigma image_float
  let sharpened := zipImg (fun x b => (amount + 1) * x - amount * b) image_float blurred
  let clipped : FImg := sharpened.map (fun r => r.map clip0255)
  let masked :=
    if 0 < threshold then
      zipImg3 (fun x b s => if |x - b| < (threshold : ℚ) then x else s)
        image_float blurred clipped
    else clipped
  masked.map (fun r => r.map toUint8)

/-! ## Helper lemmas -/

lemma clampCanvas_mem_inRange (c : List Flt) :
    ∀ p ∈ StyleTransfer.clampCanvas c, p.inRange01B = true := by
  intro p hp
  rcases List.mem_map.mp hp with ⟨q, _, rfl⟩
  cases q with
  | fin a =>
      simp only [Flt.clamp01, Flt.inRange01B, Bool.and_eq_true, decide_eq_true_eq]
      exact ⟨le_max_left 0 _, max_le (by norm_num) (min_le_left 1 a)⟩
  | nan => rfl

lemma runLoopFuel_spec (n : ℕ) (cw sw tw : ℚ)
    (lossFn : List Flt → LossParts) (gradFn : List Flt → List Flt)
    (updFn : List Flt → List Flt → List Flt) :
    ∀ (fuel : ℕ) (s : LoopState), n ≤ s.step + fuel →
      (StyleTransfer.runLoopFuel n cw sw tw lossFn gradFn updFn fuel s).step
          = s.step + (n - s.step)
      ∧ (StyleTransfer.runLoopFuel n cw sw tw lossFn gradFn updFn fuel s).history.content_loss.length
          = s.history.content_loss.length + (n - s.step)
      ∧ (StyleTransfer.runLoopFuel n cw sw tw lossFn gradFn updFn fuel s).history.style_loss.length
          = s.history.style_loss.length + (n - s.step)
      ∧ (StyleTransfer.runLoopFuel n cw sw tw lossFn gradFn updFn fuel s).history.tv_loss.length
          = s.history.tv_loss.length + (n - s.step)
      ∧ (StyleTransfer.runLoopFuel n cw sw tw lossFn gradFn updFn fuel s).history.total_loss.length
          = s.history.total_loss.length + (n - s.step)
      ∧ (StyleTransfer.runLoopFuel n cw sw tw lossFn gradFn updFn fuel s).postUpdateTrace.length
          = s.postUpdateTrace.length + (n - s.step)
      ∧ (∀ x ∈ (StyleTransfer.runLoopFuel n cw sw tw lossFn gradFn updFn fuel s).forwardTrace,
          x ∈ s.forwardTrace ∨ ∃ y, x = StyleTransfer.clampCanvas y) := by
  intro fuel
  induction fuel with
  | zero =>
      intro s h
      have hs : n - s.step = 0 := by omega
      rw [hs]
      exact ⟨rfl, rfl, rfl, rfl, rfl, rfl, fun x hx => Or.inl hx⟩
  | succ k ih =>
      intro s h
      by_cases hlt : s.step < n
      · have hstep :
            StyleTransfer.runLoopFuel n cw sw tw lossFn gradFn updFn (k + 1) s
              = StyleTransfer.runLoopFuel n cw sw tw lossFn gradFn updFn k
                  (StyleTransfer.closureStep n cw sw tw lossFn gradFn updFn s) := by
          simp [StyleTransfer.runLoopFuel, hlt]
        have h1 : (StyleTransfer.closureStep n cw sw tw lossFn gradFn updFn s).step
            = s.step + 1 := rfl
        have h2 : (StyleTransfer.closureStep n cw sw tw lossFn gradFn updFn s).history
            = HistoryRec.mk
                (s.history.content_loss ++ [(lossFn (StyleTransfer.clampCanvas s.input_image)).content])
                (s.history.style_loss ++ [(lossFn (StyleTransfer.clampCanvas s.input_image)).style])
                (s.history.tv_loss ++ [(lossFn (StyleTransfer.clampCanvas s.input_image)).tv])
                (s.history.total_loss ++ [StyleTransfer.total_loss_of cw sw tw
                  (lossFn (StyleTransfer.clampCanvas s.input_image))]) := by
          simp [StyleTransfer.closureStep, hlt]
        have h3 : (StyleTransfer.closureStep n cw sw tw lossFn gradFn updFn s).forwardTrace
            = s.forwardTrace ++ [StyleTransfer.clampCanvas s.input_image] := rfl
        have h4 : (StyleTransfer.closureStep n cw sw tw lossFn gradFn updFn s).postUpdateTrace.length
            = s.postUpdateTrace.length + 1 := by
          simp [StyleTransfer.closureStep]
        obtain ⟨g1, g2, g3, g4, g5, g6, g7⟩ :=
          ih (StyleTransfer.closureStep n cw sw tw lossFn gradFn updFn s) (by rw [h1]; omega)
        rw [hstep]
        refine ⟨by rw [g1, h1]; omega, ?_, ?_, ?_, ?_, by rw [g6, h4]; omega, ?_⟩
        · rw [g2, h2]; simp; omega
        · rw [g3, h2]; simp; omega
        · rw [g4, h2]; simp; omega
        · rw [g5, h2]; simp; omega
        · intro x hx
          rcases g7 x hx with hmem | hclamp
          · rw [h3] at hmem
            rcases List.mem_append.mp hmem with hmem' | hnew
            · exact Or.inl hmem'
            · exact Or.inr ⟨s.input_image, List.mem_singleton.mp hnew⟩
          · exact Or.inr hclamp
      · have hs : n - s.step = 0 := by omega
        have hid : StyleTransfer.runLoopFuel n cw sw tw lossFn gradFn updFn (k + 1) s = s := by
          simp [StyleTransfer.runLoopFuel, hlt]
        rw [hid, hs]
        exact ⟨rfl, rfl, rfl, rfl, rfl, rfl, fun x hx => Or.inl hx⟩

lemma flt_nan_ne_fin (q : ℚ) : (Flt.nan = Flt.fin q) = False :=
  eq_false (fun h => Flt.noConfusion h)

lemma flt_fin_ne_nan (q : ℚ) : (Flt.fin q = Flt.nan) = False :=
  eq_false (fun h => Flt.noConfusion h)

/-! ## Claim theorems -/

/-- C3 (confirmed): for every run of `transfer_style` with a non-empty style
list and configured step count `num_steps`, the run succeeds and each of the
four returned loss-history sequences (`content_loss`, `style_loss`,
`tv_loss`, `total_loss`) has length exactly `num_steps`. (The code has no
early-termination path, so "including runs that terminate early" is covered
vacuously: every run executes all steps, and the guarded append at lines
239-243 fires exactly once per step.) -/
theorem transfer_style_history_lengths_eq_num_steps {I : Type}
    (lossFn : List Flt → LossParts) (gradFn : List Flt → List Flt)
    (updFn : List Flt → List Flt → List Flt) (instCW instSW instTW : ℚ)
    (content : List Flt) (i : I) (is : List I) (num_steps : ℕ)
    (cwO swO twO : Option ℚ) :
    ∃ r, StyleTransfer.transfer_style lossFn gradFn updFn instCW instSW instTW
        content (i :: is) num_steps cwO swO twO = Except.ok r
      ∧ r.history.content_loss.length = num_steps
      ∧ r.history.style_loss.length = num_steps
      ∧ r.history.tv_loss.length = num_steps
      ∧ r.history.total_loss.length = num_steps := by
  obtain ⟨g1, g2, g3, g4, g5, g6, g7⟩ :=
    runLoopFuel_spec num_steps (StyleTransfer.resolveWeight cwO instCW)
      (StyleTransfer.resolveWeight swO instSW) (StyleTransfer.resolveWeight twO instTW)
      lossFn gradFn updFn num_steps (LoopState.mk content HistoryRec.empty 0 [] [])
      (by omega)
  refine ⟨_, rfl, ?_, ?_, ?_, ?_⟩
  · simpa [HistoryRec.empty] using g2
  · simpa [HistoryRec.empty] using g3
  · simpa [HistoryRec.empty] using g4
  · simpa [HistoryRec.empty] using g5

/-- C1 (amended): `transfer_style` performs no non-finite-gradient check and
has no abort transition: for every gradient/update behaviour it executes all
`num_steps` closure calls, applies the optimizer update after every one of
them, records the computed per-step losses for all `num_steps` steps (no
sentinel padding of unexecuted entries), and returns `Except.ok` — never an
exception — with the final (possibly non-finite) clamped canvas. -/
theorem transfer_style_runs_all_steps_unconditionally {I : Type}
    (lossFn : List Flt → LossParts) (gradFn : List Flt → List Flt)
    (updFn : List Flt → List Flt → List Flt) (instCW instSW instTW : ℚ)
    (content : List Flt) (i : I) (is : List I) (num_steps : ℕ)
    (cwO swO twO : Option ℚ) :
    ∃ r, StyleTransfer.transfer_style lossFn gradFn updFn instCW instSW instTW
        content (i :: is) num_steps cwO swO twO = Except.ok r
      ∧ r.stepsExecuted = num_steps
      ∧ r.postUpdateTrace.length = num_steps
      ∧ r.history.total_loss.length = num_steps := by
  obtain ⟨g1, g2, g3, g4, g5, g6, g7⟩ :=
    runLoopFuel_spec num_steps (StyleTransfer.resolveWeight cwO instCW)
      (StyleTransfer.resolveWeight swO instSW) (StyleTransfer.resolveWeight twO instTW)
      lossFn gradFn updFn num_steps (LoopState.mk content HistoryRec.empty 0 [] [])
      (by omega)
  refine ⟨_, rfl, ?_, ?_, ?_⟩
  · simpa using g1
  · simpa using g6
  · simpa [HistoryRec.empty] using g5

/-- C1 (counterexample): the scenario of the claim at a concrete input — a
10-step run on the one-pixel canvas `[1/2]` whose gradient is the injected
NaN exactly at step 2 (the step-1 update produces the canvas `[1/4]`, and
`nanAtQuarterGrad` yields NaN precisely there). The claim predicts: stepping
stops after step 2, the returned canvas equals the step-1 result `[1/4]`,
and history entries 3-10 are not-a-number sentinels of unexecuted steps.
The code instead executes all 10 steps (10 optimizer updates: the post-update
trace is `[1/4]` followed by nine NaN canvases), returns the NaN canvas —
not the step-1 result — and records 10 computed, finite loss entries with no
sentinel padding. -/
theorem transfer_style_nan_gradient_not_aborted :
    runStepsOf (StyleTransfer.transfer_style constLossFn nanAtQuarterGrad descentUpd
        1 1 1 [Flt.fin (1/2)] [()] 10 none none none) = 10
    ∧ runPostTraceOf (StyleTransfer.transfer_style constLossFn nanAtQuarterGrad descentUpd
        1 1 1 [Flt.fin (1/2)] [()] 10 none none none)
        = [Flt.fin (1/4)] :: List.replicate 9 [Flt.nan]
    ∧ runOutputOf (StyleTransfer.transfer_style constLossFn nanAtQuarterGrad descentUpd
        1 1 1 [Flt.fin (1/2)] [()] 10 none none none) = [Flt.nan]
    ∧ [Flt.nan] ≠ [Flt.fin (1/4)]
    ∧ runTotalLossOf (StyleTransfer.transfer_style constLossFn nanAtQuarterGrad descentUpd
        1 1 1 [Flt.fin (1/2)] [()] 10 none none none) = List.replicate 10 (Flt.fin 3)
    ∧ Flt.nan ∉ runTotalLossOf (StyleTransfer.transfer_style constLossFn nanAtQuarterGrad
        descentUpd 1 1 1 [Flt.fin (1/2)] [()] 10 none none none) := by
  norm_num [StyleTransfer.transfer_style, StyleTransfer.runLoopFuel, StyleTransfer.closureStep,
    StyleTransfer.clampCanvas, StyleTransfer.total_loss_of, StyleTransfer.resolveWeight,
    Flt.clamp01, Flt.add, Flt.mul, Flt.sub, constLossFn, nanAtQuarterGrad, descentUpd,
    runStepsOf, runOutputOf, runTotalLossOf, runPostTraceOf, HistoryRec.empty, List.replicate,
    flt_nan_ne_fin, flt_fin_ne_nan, min_def, max_def]

/-- C4 (amended): the canvas is clamped at the start of every closure call —
before the forward pass — and once more after the loop, so every canvas the
loss computation consumes, and the returned canvas, have all their finite
pixels in [0,1]. (The clamp is not applied between an optimizer update and
the next closure's opening clamp; see the counterexample.) -/
theorem transfer_style_clamped_at_forward_and_final {I : Type}
    (lossFn : List Flt → LossParts) (gradFn : List Flt → List Flt)
    (updFn : List Flt → List Flt → List Flt) (instCW instSW instTW : ℚ)
    (content : List Flt) (i : I) (is : List I) (num_steps : ℕ)
    (cwO swO twO : Option ℚ) :
    ∃ r, StyleTransfer.transfer_style lossFn gradFn updFn instCW instSW instTW
        content (i :: is) num_steps cwO swO twO = Except.ok r
      ∧ (∀ x ∈ r.forwardTrace, ∀ p ∈ x, p.inRange01B = true)
      ∧ (∀ p ∈ r.output, p.inRange01B = true) := by
  obtain ⟨g1, g2, g3, g4, g5, g6, g7⟩ :=
    runLoopFuel_spec num_steps (StyleTransfer.resolveWeight cwO instCW)
      (StyleTransfer.resolveWeight swO instSW) (StyleTransfer.resolveWeight twO instTW)
      lossFn gradFn updFn num_steps (LoopState.mk content HistoryRec.empty 0 [] [])
      (by omega)
  refine ⟨_, rfl, ?_, ?_⟩
  · intro x hx p hp
    rcases g7 x hx with hmem | ⟨y, rfl⟩
    · simp at hmem
    · exact clampCanvas_mem_inRange y p hp
  · intro p hp
    exact clampCanvas_mem_inRange _ p hp

/-- C4 (counterexample): a 1-step run on the one-pixel canvas `[1/2]` with
gradient −1: the optimizer update leaves the canvas at `[3/2]`, which is
outside [0,1] — the claim's "every pixel lies within [0,1] immediately after
every optimization step's update" is false; the value only returns to range
at the next clamp (here the final one: the returned output is `[1]`). -/
theorem transfer_style_not_clamped_after_update :
    runPostTraceOf (StyleTransfer.transfer_style constLossFn constNegGrad descentUpd
        1 1 1 [Flt.fin (1/2)] [()] 1 none none none) = [[Flt.fin (3/2)]]
    ∧ ¬ ((3 : ℚ)/2 ≤ 1)
    ∧ Flt.inRange01B (Flt.fin (3/2)) = false
    ∧ runOutputOf (StyleTransfer.transfer_style constLossFn constNegGrad descentUpd
        1 1 1 [Flt.fin (1/2)] [()] 1 none none none) = [Flt.fin 1] := by
  norm_num [StyleTransfer.transfer_style, StyleTransfer.runLoopFuel, StyleTransfer.closureStep,
    StyleTransfer.clampCanvas, StyleTransfer.total_loss_of, StyleTransfer.resolveWeight,
    Flt.clamp01, Flt.add, Flt.mul, Flt.sub, Flt.inRange01B, constLossFn, constNegGrad,
    descentUpd, runOutputOf, runPostTraceOf, HistoryRec.empty,
    flt_nan_ne_fin, flt_fin_ne_nan, min_def, max_def]

/-- C7 (confirmed): a call with an empty style-reference list fails with the
validation error before anything else runs — the result is the same
`Except.error` for every loss/gradient/update behaviour and every content
image, i.e. no feature extraction or Gram accumulation is consulted — and
`_calculate_average_style_grams` likewise rejects an empty list before
touching the extractor. The error is returned to the caller, never recovered
internally. -/
theorem empty_style_references_fail_fast {I : Type} {B C H W : ℕ}
    (lossFn : List Flt → LossParts) (gradFn : List Flt → List Flt)
    (updFn : List Flt → List Flt → List Flt) (instCW instSW instTW : ℚ)
    (content : List Flt) (num_steps : ℕ) (cwO swO twO : Option ℚ)
    (extract : I → String → FMap B C H W) (style_layers : List String) :
    StyleTransfer.transfer_style lossFn gradFn updFn instCW instSW instTW
        content ([] : List I) num_steps cwO swO twO = Except.error TErr.emptyStyleList
    ∧ calculate_average_style_grams extract style_layers ([] : List I)
        = Except.error TErr.emptyStyleList := by
  exact ⟨rfl, rfl⟩

/-- C2 (code bug): the transformation service's local-transform call passes
`learning_rate` as a keyword argument to `transfer_style`, but
`transfer_style` declares no such parameter — Python keyword binding rejects
the call (`TypeError: got an unexpected keyword argument`), while every other
keyword of the call does bind. The learning rate is therefore rejected, not
accepted and applied, by the optimization entry point. -/
theorem local_transform_learning_rate_rejected :
    accepts_keywords transfer_style_parameters local_transform_call_keywords = false
    ∧ "learning_rate" ∈ local_transform_call_keywords
    ∧ "learning_rate" ∉ transfer_style_parameters
    ∧ ∀ k ∈ ["num_steps", "style_weight", "content_weight", "tv_weight"],
        k ∈ transfer_style_parameters := by
  decide

/-- C10 (confirmed): weight resolution `content_w = content_weight or
self.content_weight` (and likewise for style/tv) treats an explicit `0.0`
override exactly like an absent override — the run is identical to one with
no override, using the instance default — while a non-zero override `v` makes
the run identical to one whose instance default is `v` (the override takes
effect). -/
theorem zero_weight_override_uses_instance_default {I : Type}
    (lossFn : List Flt → LossParts) (gradFn : List Flt → List Flt)
    (updFn : List Flt → List Flt → List Flt) (instCW instSW instTW : ℚ)
    (content : List Flt) (style_images : List I) (num_steps : ℕ)
    (cwO swO twO : Option ℚ) :
    (StyleTransfer.transfer_style lossFn gradFn updFn instCW instSW instTW
        content style_images num_steps (some 0) swO twO
      = StyleTransfer.transfer_style lossFn gradFn updFn instCW instSW instTW
        content style_images num_steps none swO twO)
    ∧ (StyleTransfer.transfer_style lossFn gradFn updFn instCW instSW instTW
        content style_images num_steps cwO (some 0) twO
      = StyleTransfer.transfer_style lossFn gradFn updFn instCW instSW instTW
        content style_images num_steps cwO none twO)
    ∧ (StyleTransfer.transfer_style lossFn gradFn updFn instCW instSW instTW
        content style_images num_steps cwO swO (some 0)
      = StyleTransfer.transfer_style lossFn gradFn updFn instCW instSW instTW
        content style_images num_steps cwO swO none)
    ∧ (∀ v : ℚ, v ≠ 0 →
        StyleTransfer.transfer_style lossFn gradFn updFn instCW instSW instTW
          content style_images num_steps (some v) swO twO
        = StyleTransfer.transfer_style lossFn gradFn updFn v instSW instTW
          content style_images num_steps none swO twO)
    ∧ (∀ v : ℚ, v ≠ 0 →
        StyleTransfer.transfer_style lossFn gradFn updFn instCW instSW instTW
          content style_images num_steps cwO (some v) twO
        = StyleTransfer.transfer_style lossFn gradFn updFn instCW v instTW
          content style_images num_steps cwO none twO)
    ∧ (∀ v : ℚ, v ≠ 0 →
        StyleTransfer.transfer_style lossFn gradFn updFn instCW instSW instTW
          content style_images num_steps cwO swO (some v)
        = StyleTransfer.transfer_style lossFn gradFn updFn instCW instSW v
          content style_images num_steps cwO swO none) := by
  refine ⟨?_, ?_, ?_, ?_, ?_, ?_⟩
  · simp [StyleTransfer.transfer_style, StyleTransfer.resolveWeight]
  · simp [StyleTransfer.transfer_style, StyleTransfer.resolveWeight]
  · simp [StyleTransfer.transfer_style, StyleTransfer.resolveWeight]
  · intro v hv; simp [StyleTransfer.transfer_style, StyleTransfer.resolveWeight, hv]
  · intro v hv; simp [StyleTransfer.transfer_style, StyleTransfer.resolveWeight, hv]
  · intro v hv; simp [StyleTransfer.transfer_style, StyleTransfer.resolveWeight, hv]

/-- C10 (witness): the nonzero-override conjuncts instantiated at the
override value 5 on a concrete one-step run. -/
theorem zero_weight_override_uses_instance_default_witness :
    StyleTransfer.transfer_style constLossFn constNegGrad descentUpd 1 1 1
        [Flt.fin (1/2)] [()] 1 (some 5) none none
      = StyleTransfer.transfer_style constLossFn constNegGrad descentUpd 5 1 1
        [Flt.fin (1/2)] [()] 1 none none none :=
  (zero_weight_override_uses_instance_default constLossFn constNegGrad descentUpd 1 1 1
      [Flt.fin (1/2)] [()] 1 none none none).2.2.2.1 5 (by norm_num)

/-- C6 (confirmed): `gram_matrix` of any feature map is symmetric — entry
(b, i, j) equals entry (b, j, i); over the exact rationals the transpose
equality is exact, and commutativity of multiplication is the whole content
of the claim's "symmetric by construction". -/
theorem gram_matrix_symmetric {B C H W : ℕ} (f : FMap B C H W)
    (b : Fin B) (i j : Fin C) :
    VGG19FeatureExtractor.gram_matrix f b i j = VGG19FeatureExtractor.gram_matrix f b j i := by
  have hsum : (∑ h : Fin H, ∑ w : Fin W, f.data b i h w * f.data b j h w)
      = ∑ h : Fin H, ∑ w : Fin W, f.data b j h w * f.data b i h w :=
    Finset.sum_congr rfl fun h _ => Finset.sum_congr rfl fun w _ => mul_comm _ _
  simp only [VGG19FeatureExtractor.gram_matrix, hsum]

lemma validation_filter_iff (ls : List String) :
    (ls.filter (fun l => !(layer_map_names.contains l))).isEmpty = true
      ↔ ∀ l ∈ ls, l ∈ layer_map_names := by
  rw [List.isEmpty_iff, List.filter_eq_nil_iff]
  constructor
  · intro h l hl
    have := h l hl
    simpa using this
  · intro h l hl
    simpa using h l hl

lemma validate_ok_iff (layers : List String) :
    (∃ ex, validate_layer_names layers = Except.ok ex)
      ↔ ∀ l ∈ layers, l ∈ layer_map_names := by
  rw [← validation_filter_iff]
  unfold validate_layer_names
  constructor
  · rintro ⟨ex, hex⟩
    by_cases h : (layers.filter (fun l => !(layer_map_names.contains l))).isEmpty = true
    · exact h
    · rw [if_neg h] at hex
      exact absurd hex (by simp)
  · intro h
    exact ⟨⟨layers⟩, by rw [if_pos h]⟩

/-- C8 (confirmed): constructing the extractor with a requested layer set, or
changing its active set through `set_layers`, succeeds exactly when every
requested name is in the catalog; a set containing an unknown name fails with
the invalid-layer error, and the validation sits before any feature
computation (construction performs nothing beyond it in either case). For an
empty requested list the constructor's Python `or` falls back to the default
layers, which are all in the catalog, so construction still succeeds. -/
theorem layer_validation_at_init_and_set_layers (ls : List String) (e : Extractor) :
    ((∃ ex, VGG19FeatureExtractor.init (some ls) = Except.ok ex)
        ↔ ∀ l ∈ ls, l ∈ layer_map_names)
    ∧ ((∃ ex, e.set_layers ls = Except.ok ex)
        ↔ ∀ l ∈ ls, l ∈ layer_map_names) := by
  refine ⟨?_, validate_ok_iff ls⟩
  cases ls with
  | nil =>
      have hdef : ∀ l ∈ default_extractor_layers, l ∈ layer_map_names := by decide
      refine iff_of_true ?_ ?_
      · exact (validate_ok_iff default_extractor_layers).mpr hdef
      · intro l hl
        exact absurd hl (List.not_mem_nil l)
  | cons a as =>
      exact validate_ok_iff (a :: as)

lemma calc_avg_grams_ok {I : Type} {B C H W : ℕ}
    (extract : I → String → FMap B C H W) (style_layers : List String)
    (a : I) (as : List I) :
    calculate_average_style_grams extract style_layers (a :: as)
      = Except.ok (fun layer => stackMean ((a :: as).map
          (fun im => VGG19FeatureExtractor.gram_matrix (extract im layer)))) := by
  unfold calculate_average_style_grams
  simp

/-- C5 (confirmed): for every non-empty reference list and every configured
style layer, the profile entry `_calculate_average_style_grams` produces for
that layer is the element-wise mean of that layer's Gram matrices across all
references; in particular for two references with per-layer Gram matrices G1
and G2 the entry is exactly (G1+G2)/2. -/
theorem average_style_grams_is_elementwise_mean {I : Type} {B C H W : ℕ}
    (extract : I → String → FMap B C H W) (style_layers : List String)
    (style_images : List I) (layer : String)
    (_hlayer : layer ∈ style_layers) (hne : style_images ≠ []) :
    ∃ g, calculate_average_style_grams extract style_layers style_images = Except.ok g
      ∧ (∀ b i j, g layer b i j
          = (style_images.map (fun im =>
              VGG19FeatureExtractor.gram_matrix (extract im layer) b i j)).sum
            / (style_images.length : ℚ))
      ∧ ∀ i1 i2 : I, ∃ g2,
          calculate_average_style_grams extract style_layers [i1, i2] = Except.ok g2
          ∧ ∀ b i j, g2 layer b i j
              = (VGG19FeatureExtractor.gram_matrix (extract i1 layer) b i j
                 + VGG19FeatureExtractor.gram_matrix (extract i2 layer) b i j) / 2 := by
  obtain ⟨a, as, rfl⟩ := List.exists_cons_of_ne_nil hne
  refine ⟨_, calc_avg_grams_ok extract style_layers a as, ?_, ?_⟩
  · intro b i j
    simp [stackMean, List.map_map, Function.comp_def]
  · intro i1 i2
    refine ⟨_, calc_avg_grams_ok extract style_layers i1 [i2], ?_⟩
    intro b i j
    simp [stackMean]

/-- C5 (witness): the hypotheses discharged and the conclusion instantiated
at the concrete extractor `constFMapExtractor`, the two references 2 and 4
and the layer "conv1_1". -/
theorem average_style_grams_is_elementwise_mean_witness :
    ("conv1_1" ∈ ["conv1_1"])
    ∧ ([(2 : ℚ), 4] ≠ [])
    ∧ ∃ g, calculate_average_style_grams constFMapExtractor
          ["conv1_1"] [(2 : ℚ), 4] = Except.ok g
        ∧ (∀ b i j, g ("conv1_1") b i j
            = ([(2 : ℚ), 4].map (fun im =>
                VGG19FeatureExtractor.gram_matrix (constFMapExtractor im ("conv1_1"))
                  b i j)).sum
              / (([(2 : ℚ), 4].length : ℕ) : ℚ))
        ∧ ∀ i1 i2 : ℚ, ∃ g2, calculate_average_style_grams constFMapExtractor
              ["conv1_1"] [i1, i2] = Except.ok g2
            ∧ ∀ b i j, g2 ("conv1_1") b i j
                = (VGG19FeatureExtractor.gram_matrix (constFMapExtractor i1 ("conv1_1")) b i j
                   + VGG19FeatureExtractor.gram_matrix (constFMapExtractor i2 ("conv1_1")) b i j)
                  / 2 :=
  ⟨by decide, by decide,
    average_style_grams_is_elementwise_mean constFMapExtractor ["conv1_1"]
      [(2 : ℚ), 4] "conv1_1" (by decide) (by decide)⟩

lemma zipWith_left_of_le (f : ℚ → ℚ → ℚ) (hf : ∀ x y, f x y = x) :
    ∀ (a b : List ℚ), a.length ≤ b.length → List.zipWith f a b = a := by
  intro a
  induction a with
  | nil => intro b _; simp
  | cons x xs ih =>
      intro b h
      cases b with
      | nil => simp at h
      | cons y ys =>
          simp only [List.zipWith_cons_cons, hf, List.cons.injEq, true_and]
          exact ih ys (by simpa using h)

lemma zipImg_left_of_shape (f : ℚ → ℚ → ℚ) (hf : ∀ x y, f x y = x) :
    ∀ (A B : List (List ℚ)), List.map List.length B = List.map List.length A →
      zipImg f A B = A := by
  intro A
  induction A with
  | nil =>
      intro B h
      cases B with
      | nil => rfl
      | cons rb rbs => simp at h
  | cons r rs ih =>
      intro B h
      cases B with
      | nil => simp at h
      | cons rb rbs =>
          simp only [List.map_cons, List.cons.injEq] at h
          have h1 := zipWith_left_of_le f hf r rb (le_of_eq h.1.symm)
          have h2 := ih rbs h.2
          simp only [zipImg] at h2 ⊢
          simp [h1, h2]

lemma toUint8_clip_cast (p : ℕ) (hp : p < 256) : toUint8 (clip0255 ((p : ℚ))) = p := by
  have h255 : ((p : ℚ)) ≤ 255 := by exact_mod_cast Nat.lt_succ_iff.mp hp
  have h0 : (0 : ℚ) ≤ (p : ℚ) := by positivity
  unfold toUint8 clip0255
  rw [min_eq_right h255, max_eq_right h0, Int.floor_natCast]
  simp [Nat.mod_eq_of_lt hp]

lemma row_roundtrip (r : List ℕ) (hr : ∀ p ∈ r, p < 256) :
    List.map toUint8 (List.map clip0255 (List.map (fun p => ((p : ℕ) : ℚ)) r)) = r := by
  induction r with
  | nil => rfl
  | cons p ps ih =>
      simp only [List.map_cons, List.cons.injEq]
      exact ⟨toUint8_clip_cast p (hr p (List.mem_cons_self p ps)),
        ih (fun q hq => hr q (List.mem_cons_of_mem p hq))⟩

lemma map3_roundtrip : ∀ (image : List (List ℕ)), (∀ r ∈ image, ∀ p ∈ r, p < 256) →
    List.map (fun r => List.map toUint8 r)
      (List.map (fun r => List.map clip0255 r)
        (List.map (fun r => List.map (fun p => ((p : ℕ) : ℚ)) r) image)) = image := by
  intro image
  induction image with
  | nil => intro _; rfl
  | cons r rs ih =>
      intro hpix
      simp only [List.map_cons, List.cons.injEq]
      exact ⟨row_roundtrip r (hpix r (List.mem_cons_self r rs)),
        ih (fun r' hr' => hpix r' (List.mem_cons_of_mem r hr'))⟩

/-- C9 (confirmed): `unsharp_mask` with `amount = 0` and `threshold = 0` is
an identity transform on every 8-bit image (pixels below 256): the sharpened
float image is `(0+1)·original − 0·blurred = original`, the clip to [0,255]
leaves in-range pixels unchanged, the threshold branch is skipped, and the
conversion back to uint8 restores every pixel exactly. The Gaussian blur is
any shape-preserving image transformation. -/
theorem unsharp_mask_amount_zero_identity
    (blur : (ℕ × ℕ) → ℚ → FImg → FImg) (kernel_size : ℕ × ℕ) (sigma : ℚ)
    (image : List (List ℕ))
    (hshape : List.map List.length (blur kernel_size sigma (toFloatImg image))
        = List.map List.length (toFloatImg image))
    (hpix : ∀ r ∈ image, ∀ p ∈ r, p < 256) :
    unsharp_mask blur kernel_size sigma 0 0 image = image := by
  simp only [unsharp_mask, Nat.lt_irrefl, if_false]
  rw [zipImg_left_of_shape (fun x b => (0 + 1) * x - 0 * b) (fun x y => by ring)
      (toFloatImg image) (blur kernel_size sigma (toFloatImg image)) hshape]
  unfold toFloatImg
  exact map3_roundtrip image hpix

/-- C9 (witness): both hypotheses discharged and the identity evaluated at
the identity blur and the single-row image [0, 128, 255]. -/
theorem unsharp_mask_amount_zero_identity_witness :
    (List.map List.length (toFloatImg [[0, 128, 255]])
        = List.map List.length (toFloatImg [[0, 128, 255]]))
    ∧ (∀ r ∈ [[0, 128, 255]], ∀ p ∈ r, p < 256)
    ∧ unsharp_mask (fun _ _ i => i) (5, 5) 1 0 0 [[0, 128, 255]] = [[0, 128, 255]] :=
  ⟨rfl, by decide,
    unsharp_mask_amount_zero_identity (fun _ _ i => i) (5, 5) 1 [[0, 128, 255]]
      rfl (by decide)⟩
